import Mathlib

/-!
Verification development for the `gatsby-source-dropbox` plugin
(`src/gatsby-node.js`), a shallow embedding of its pipeline:
remote listing (`getData`), entry classification (`extractFiles`,
`extractFolders`, `getNodeType`), record building (`createNodeData`),
graph linking (`getParentFolderName`, `getLinkedNodes`) and payload
materialization (`processRemoteFile`), plus the `sourceNodes` driver.
JS objects become Lean structures (absent fields become `Option`),
thrown exceptions become `Option`/`Except` results, and the calls made
to collaborators (cache, touchNode, Dropbox API, createRemoteFileNode)
are recorded as an explicit action trace.
-/

/-! ## Node type constants (source lines 14-17) -/

def TYPE_MARKDOWN : String := "dropboxMarkdown"

def TYPE_IMAGE : String := "dropboxImage"

def TYPE_FOLDER : String := "dropboxFolder"

def TYPE_DEFAULT : String := "dropboxNode"

/-! ## Plugin options (source lines 7-12) -/

structure Options where
  path : String
  recursive : Bool
  extensions : List String
  createFolderNodes : Bool
deriving DecidableEq, Repr

def defaultOptions : Options :=
  { path := ""
    recursive := true
    extensions := [".jpg", ".png", ".md"]
    createFolderNodes := true }

/-! ## Raw Dropbox listing entries (the objects in `data.entries`).
`tag` models the JS field `".tag"`.  File entries always carry
`client_modified` in the Dropbox API, so it is a plain `String`. -/

structure RemoteEntry where
  tag : String
  id : String
  name : String
  path_display : String
  client_modified : String
deriving DecidableEq, Repr

/-! ## `path.extname` / `path.basename` from Node's `path` module,
as used by the source on names such as `"a.md"` or `"/docs/a.md"`:
the extension is the suffix of the last path segment starting at its
last `.`, empty when the segment has no `.`, starts with its only `.`
(dotfile), or is `".."`. -/

def lastIdxOf (c : Char) : List Char → Option Nat
  | [] => none
  | d :: ds =>
    match lastIdxOf c ds with
    | some i => some (i + 1)
    | none => if d = c then some 0 else none

def basenameChars (l : List Char) : List Char :=
  match lastIdxOf '/' l with
  | none => l
  | some i => l.drop (i + 1)

def extnameChars (l : List Char) : List Char :=
  let base := basenameChars l
  match lastIdxOf '.' base with
  | none => []
  | some i => if i = 0 then [] else if base = ['.', '.'] then [] else base.drop i

def extname (s : String) : String := ⟨extnameChars s.data⟩

/-! ## `JSON.stringify` on the digest payloads.
`JSON.stringify` of an object literal serializes the keys in insertion
order; string values are quoted, with `"`, `\` and control characters
escaped exactly as below (named escapes for 0x08-0x0D except 0x0B,
`\u00XX` with lowercase hex for the remaining chars below 0x20). -/

def hexDigitChar (n : Nat) : Char :=
  if n < 10 then Char.ofNat (48 + n) else Char.ofNat (87 + n)

def escChar (c : Char) : List Char :=
  if c = '"' then ['\\', '"']
  else if c = '\\' then ['\\', '\\']
  else if c = '\x08' then ['\\', 'b']
  else if c = '\x09' then ['\\', 't']
  else if c = '\x0a' then ['\\', 'n']
  else if c = '\x0c' then ['\\', 'f']
  else if c = '\x0d' then ['\\', 'r']
  else if c.toNat < 32 then
    ['\\', 'u', '0', '0', hexDigitChar (c.toNat / 16), hexDigitChar (c.toNat % 16)]
  else [c]

def lbrace : Char := Char.ofNat 123

def rbrace : Char := Char.ofNat 125

def jsonStrChars (s : List Char) : List Char := '"' :: (s.flatMap escChar ++ ['"'])

/-- `JSON.stringify({ name, path, lastModified })` for a file record
(source line 187). -/
def digestChars (n p l : List Char) : List Char :=
  [lbrace] ++ "\"name\":".data ++ jsonStrChars n ++ ",\"path\":".data ++ jsonStrChars p
    ++ ",\"lastModified\":".data ++ jsonStrChars l ++ [rbrace]

def digestOfFile (name path lastModified : String) : String :=
  ⟨digestChars name.data path.data lastModified.data⟩

/-- `JSON.stringify({ name, path })` for a folder record (source line 208). -/
def digestOfFolder (name path : String) : String :=
  ⟨[lbrace] ++ "\"name\":".data ++ jsonStrChars name.data
    ++ ",\"path\":".data ++ jsonStrChars path.data ++ [rbrace]⟩

/-- `JSON.stringify({ name: "root" })` for the synthetic root folder
record (source line 221). -/
def digestOfRootFolder : String :=
  ⟨[lbrace] ++ "\"name\":".data ++ jsonStrChars "root".data ++ [rbrace]⟩

/-! ## A decoder for the digest strings.
`unquote` undoes the escaping up to the closing quote; `parseDigest`
recovers the three semantic fields from a file digest.  These exist only
to prove that the digest determines (`name`, `path`, `lastModified`). -/

def hexValChar (c : Char) : Nat :=
  if 97 ≤ c.toNat then c.toNat - 87 else c.toNat - 48

def escSimple (e : Char) : Option Char :=
  if e = '"' then some '"'
  else if e = '\\' then some '\\'
  else if e = 'b' then some '\x08'
  else if e = 't' then some '\x09'
  else if e = 'n' then some '\x0a'
  else if e = 'f' then some '\x0c'
  else if e = 'r' then some '\x0d'
  else none

def unquote : List Char → Option (List Char × List Char)
  | [] => none
  | c :: rest =>
    if c = '"' then some ([], rest)
    else if c = '\\' then
      match rest with
      | [] => none
      | e :: rest2 =>
        if e = 'u' then
          match rest2 with
          | a :: b :: c2 :: d :: rest3 =>
            (unquote rest3).map fun q =>
              (Char.ofNat (((hexValChar a * 16 + hexValChar b) * 16 + hexValChar c2) * 16
                + hexValChar d) :: q.1, q.2)
          | _ => none
        else
          match escSimple e with
          | some ch => (unquote rest2).map fun q => (ch :: q.1, q.2)
          | none => none
    else (unquote rest).map fun q => (c :: q.1, q.2)
termination_by structural l => l

def dropLit : List Char → List Char → Option (List Char)
  | [], s => some s
  | c :: cs, s =>
    match s with
    | [] => none
    | d :: ds => if c = d then dropLit cs ds else none

def openLit : List Char := [lbrace] ++ "\"name\":".data ++ ['"']

def pathLit : List Char := ",\"path\":".data ++ ['"']

def lmLit : List Char := ",\"lastModified\":".data ++ ['"']

def parseDigest (s : List Char) : Option (List Char × List Char × List Char) :=
  (dropLit openLit s).bind fun s1 =>
  (unquote s1).bind fun q1 =>
  (dropLit pathLit q1.2).bind fun s2 =>
  (unquote s2).bind fun q2 =>
  (dropLit lmLit q2.2).bind fun s3 =>
  (unquote s3).bind fun q3 =>
  if q3.2 = [rbrace] then some (q1.1, q2.1, q3.1) else none

/-! ## Records (the node objects handed to `createNode`).
JS fields that some records lack are `Option`: the synthetic root
folder record is created without `name` and `path` (source lines
215-223), relation lists exist only on linked folder records, and
`localFile` models the `localFile___NODE` foreign-key field that
`processRemoteFile` may attach.  `dropboxImageIds` / `dropboxMarkdownIds`
model the JS fields `dropboxImage___NODE` / `dropboxMarkdown___NODE`. -/

structure Internal where
  type : String
  contentDigest : String
deriving DecidableEq, Repr

structure Record where
  id : String
  parent : String
  children : List String
  internal : Internal
  name : Option String := none
  path : Option String := none
  lastModified : Option String := none
  dropboxImageIds : Option (List String) := none
  dropboxMarkdownIds : Option (List String) := none
  localFile : Option String := none
deriving DecidableEq, Repr

/-! ## Remote listing (source lines 23-52).
`getData` wraps the two Dropbox calls in a try/catch; on any error it
warns and returns the JS array literal `[]`.  That `[]` is *not* a
listing object: `[].entries` is `Array.prototype.entries` (a function),
so a later `data.entries.filter` throws a TypeError.  `ListingData`
keeps the two shapes apart. -/

structure DbxApi where
  filesGetMetadata : String → Except String String
  filesListFolder : String → Bool → Except String (List RemoteEntry)

inductive ListingData where
  | ok (entries : List RemoteEntry)
  | emptyArray
deriving DecidableEq, Repr

def getData (dbx : DbxApi) (options : Options) : ListingData :=
  let attempt : Except String (List RemoteEntry) := do
    let folderId ← if options.path == "" then pure "" else dbx.filesGetMetadata options.path
    dbx.filesListFolder folderId options.recursive
  match attempt with
  | .ok files => .ok files
  | .error _ => .emptyArray

/-! ## Entry classification (source lines 103-131). -/

/-- `extractFiles` (source lines 103-105).  `none` models the TypeError
thrown by `data.entries.filter` when `data` is the array `[]` returned
by `getData`'s catch branch (`[].entries` is the array iterator method,
which has no `.filter`). -/
def extractFiles (data : ListingData) (options : Options) : Option (List RemoteEntry) :=
  match data with
  | .ok entries =>
    some (entries.filter fun entry =>
      entry.tag == "file" && options.extensions.contains (extname entry.name))
  | .emptyArray => none

/-- `extractFolders` (source lines 107-109); throws on the `[]` shape for
the same reason as `extractFiles`. -/
def extractFolders (data : ListingData) : Option (List RemoteEntry) :=
  match data with
  | .ok entries => some (entries.filter fun entry => entry.tag == "folder")
  | .emptyArray => none

/-- `getNodeType` (source lines 111-131).  The JS switch reads
`case '.png' || '.jpg':`; the expression `'.png' || '.jpg'` evaluates to
`'.png'`, so that case label matches only `'.png'` and `'.jpg'` falls
through to `default`. -/
def getNodeType (file : RemoteEntry) (options : Options) : String :=
  if options.createFolderNodes then
    let extension := extname file.path_display
    if extension = ".md" then TYPE_MARKDOWN
    else if extension = ".png" then TYPE_IMAGE
    else TYPE_DEFAULT
  else TYPE_DEFAULT

/-! ## Parent folder name (source lines 133-137). -/

def beforeLastSlash (l : List Char) : List Char :=
  match lastIdxOf '/' l with
  | none => []
  | some i => l.take i

/-- JS `String.prototype.replace` with a string pattern replaces only the
first occurrence. -/
def removeFirstSlash : List Char → List Char
  | [] => []
  | c :: cs => if c = '/' then cs else c :: removeFirstSlash cs

/-- `getParentFolderName` on the file's `path` string:
`path.substring(0, path.lastIndexOf('/')).replace('/', '')`, then
`''` is replaced by `'root'`. -/
def parentFolderName (path : String) : String :=
  let s := removeFirstSlash (beforeLastSlash path.data)
  if s = [] then "root" else ⟨s⟩

/-- `getParentFolderName` (source lines 133-137).  It is only ever
applied to file records, which always carry a `path`. -/
def getParentFolderName (file : Record) : String :=
  parentFolderName (file.path.getD "")

/-! ## Record building (source lines 171-229). -/

/-- The file-record constructor mapped over `files`
(source lines 174-191). -/
def buildFileNode (options : Options) (file : RemoteEntry) : Record :=
  { id := file.id
    parent := "__SOURCE__"
    children := []
    internal :=
      { type := getNodeType file options
        contentDigest := digestOfFile file.name file.path_display file.client_modified }
    name := some file.name
    path := some file.path_display
    lastModified := some file.client_modified }

/-- The folder-record constructor mapped over `folders`
(source lines 196-212). -/
def buildFolderNode (folder : RemoteEntry) : Record :=
  { id := folder.id
    parent := "__SOURCE__"
    children := []
    internal :=
      { type := TYPE_FOLDER
        contentDigest := digestOfFolder folder.name folder.path_display }
    name := some folder.name
    path := some folder.path_display }

/-- The synthetic root folder record pushed at source lines 215-223.
The object literal has no `name` or `path` field; the string `"root"`
appears only inside its `contentDigest`. -/
def rootFolderNode : Record :=
  { id := "dropboxRoot"
    parent := "__SOURCE__"
    children := []
    internal := { type := TYPE_FOLDER, contentDigest := digestOfRootFolder } }

/-! ## Graph linking (source lines 143-165). -/

/-- `getParentFolderName(file) === name` where `name` is
`folderDatum.name`; comparing a string with `undefined` under JS `===`
is `false`. -/
def strictEqNameUndef (name : Option String) (s : String) : Bool :=
  match name with
  | some n => s == n
  | none => false

/-- The per-folder body of the `folderNodes.map` at source lines 144-160. -/
def linkFolder (fileNodes : List Record) (folderDatum : Record) : Record :=
  let relatedNodes :=
    fileNodes.filter fun file => strictEqNameUndef folderDatum.name (getParentFolderName file)
  let relatedImageNodes := relatedNodes.filter fun node => node.internal.type == TYPE_IMAGE
  let relatedMarkdownNodes := relatedNodes.filter fun node => node.internal.type == TYPE_MARKDOWN
  { folderDatum with
    dropboxImageIds := some (relatedImageNodes.map Record.id)
    dropboxMarkdownIds := some (relatedMarkdownNodes.map Record.id) }

/-- `getLinkedNodes` (source lines 143-165): linked folder records
followed by the (unmodified) file records. -/
def getLinkedNodes (folderNodes fileNodes : List Record) : List Record :=
  folderNodes.map (linkFolder fileNodes) ++ fileNodes

/-- `createNodeData` (source lines 171-229); `none` propagates the
TypeError thrown by `extractFiles`/`extractFolders` on the `[]` shape. -/
def createNodeData (data : ListingData) (options : Options) : Option (List Record) :=
  match extractFiles data options with
  | none => none
  | some files =>
    let fileNodes := files.map (buildFileNode options)
    if options.createFolderNodes then
      match extractFolders data with
      | none => none
      | some folders =>
        let folderNodes := folders.map buildFolderNode ++ [rootFolderNode]
        some (getLinkedNodes folderNodes fileNodes)
    else
      some fileNodes

/-! ## Payload materialization (source lines 58-97).
The collaborator calls are recorded as an action trace.  `env` gives the
combined outcome of `filesGetTemporaryLink` + `createRemoteFileNode` for
a given remote path; the cache maps keys to the stored `fileNodeID`. -/

inductive Act where
  | cacheGet (key : String)
  | touchNode (nodeId : String)
  | getTemporaryUrl (path : String)
  | createRemoteFile (path : String)
  | cacheSet (key : String) (fileNodeID : String)
deriving DecidableEq, Repr

inductive DownloadResult where
  /-- `filesGetTemporaryLink` throws. -/
  | urlError
  /-- `createRemoteFileNode` throws (after the url request). -/
  | createError
  /-- `createRemoteFileNode` resolves to a falsy value. -/
  | noNode
  /-- `createRemoteFileNode` resolves to a file node with this id. -/
  | node (id : String)
deriving DecidableEq, Repr

def remoteDataCacheKey (datum : Record) : String := "dropbox-file-" ++ datum.id

/-- JS truthiness of the `fileNodeID` variable: `undefined` and `""` are
falsy. -/
def jsTruthy : Option String → Bool
  | none => false
  | some s => !(s == "")

structure MaterializeResult where
  datum : Record
  trace : List Act
  cache : String → Option String

/-- `processRemoteFile` (source lines 58-97).  Only records whose type is
image, markdown or default enter the body; a cache hit touches the
stored node and, when the stored id is truthy, skips the download;
otherwise the download is attempted inside a try/catch, storing the
resulting node id in the cache on success; finally `localFile___NODE`
is attached iff `fileNodeID` is truthy. -/
def processRemoteFile (env : String → DownloadResult) (cache : String → Option String)
    (datum : Record) : MaterializeResult :=
  if datum.internal.type == TYPE_IMAGE || datum.internal.type == TYPE_MARKDOWN
      || datum.internal.type == TYPE_DEFAULT then
    let key := remoteDataCacheKey datum
    let cached := cache key
    let fileNodeID1 : Option String := cached
    let trace1 : List Act :=
      match cached with
      | some v => [Act.cacheGet key, Act.touchNode v]
      | none => [Act.cacheGet key]
    if jsTruthy fileNodeID1 then
      { datum := { datum with localFile := fileNodeID1 }, trace := trace1, cache := cache }
    else
      let p := datum.path.getD ""
      match env p with
      | .urlError =>
        { datum := datum, trace := trace1 ++ [Act.getTemporaryUrl p], cache := cache }
      | .createError =>
        { datum := datum
          trace := trace1 ++ [Act.getTemporaryUrl p, Act.createRemoteFile p]
          cache := cache }
      | .noNode =>
        { datum := datum
          trace := trace1 ++ [Act.getTemporaryUrl p, Act.createRemoteFile p]
          cache := cache }
      | .node nid =>
        { datum := if jsTruthy (some nid) then { datum with localFile := some nid } else datum
          trace := trace1 ++ [Act.getTemporaryUrl p, Act.createRemoteFile p,
            Act.cacheSet key nid]
          cache := fun k => if k == key then some nid else cache k }
  else
    { datum := datum, trace := [], cache := cache }

/-- The `Promise.all(nodeData.map(...))` loop of `sourceNodes` (source
lines 240-252), linearized; the cache is threaded through because all
materializations share it. -/
def processAllRecords (env : String → DownloadResult) :
    (String → Option String) → List Record → List Record × (String → Option String)
  | cache, [] => ([], cache)
  | cache, r :: rs =>
    let res := processRemoteFile env cache r
    let rest := processAllRecords env res.cache rs
    (res.datum :: rest.1, rest.2)

/-- `sourceNodes` (source lines 231-253) on already-merged options;
`none` models the run rejecting with an uncaught exception. -/
def sourceNodes (dbx : DbxApi) (env : String → DownloadResult)
    (cache : String → Option String) (options : Options) : Option (List Record) :=
  let data := getData dbx options
  match createNodeData data options with
  | none => none
  | some nodeData => some (processAllRecords env cache nodeData).1

/-! ## Concrete collaborators and entries used to instantiate the
general theorems. -/

/-- A Dropbox client whose every call fails. -/
def failDbx : DbxApi :=
  { filesGetMetadata := fun _ => .error "invalid_access_token"
    filesListFolder := fun _ _ => .error "invalid_access_token" }

def emptyCache : String → Option String := fun _ => none

def envFailAll : String → DownloadResult := fun _ => DownloadResult.urlError

/-- A materializer that fails for `/b.md` and succeeds elsewhere. -/
def envFailB : String → DownloadResult :=
  fun p => if p == "/b.md" then DownloadResult.urlError else DownloadResult.node ("fn" ++ p)

/-- A materializer that always succeeds. -/
def envOk : String → DownloadResult := fun p => DownloadResult.node ("fn" ++ p)

def mdEntryA : RemoteEntry := ⟨"file", "id:a", "a.md", "/a.md", "2020-01-01"⟩

def mdEntryB : RemoteEntry := ⟨"file", "id:b", "b.md", "/b.md", "2020-01-02"⟩

def mdEntryC : RemoteEntry := ⟨"file", "id:c", "c.md", "/c.md", "2020-01-03"⟩

def jpgEntry : RemoteEntry := ⟨"file", "id:j", "b.jpg", "/b.jpg", "2020-01-04"⟩

def docsMdEntry : RemoteEntry := ⟨"file", "id:m", "a.md", "/docs/a.md", "2020-01-05"⟩

def docsFolderEntry : RemoteEntry := ⟨"folder", "id:f1", "docs", "/docs", ""⟩

def docsFolderEntry2 : RemoteEntry := ⟨"folder", "id:f2", "docs", "/x/docs", ""⟩

def bFolderEntry : RemoteEntry := ⟨"folder", "id:fb", "b", "/a/b", ""⟩

def deepPngEntry : RemoteEntry := ⟨"file", "id:d", "c.png", "/a/b/c.png", "2020-01-06"⟩

def pngInBEntry : RemoteEntry := ⟨"file", "id:p", "c.png", "/b/c.png", "2020-01-07"⟩

/-! # Theorems -/

/-! ## The digest decoder inverts the digest encoder. -/

theorem dropLit_append (l s : List Char) : dropLit l (l ++ s) = some s := by
  induction l with
  | nil => rfl
  | cons c cs ih => simp [dropLit, ih]

theorem hexVal_hexDigit (n : Nat) (h : n < 16) : hexValChar (hexDigitChar n) = n := by
  interval_cases n <;> decide

theorem unquote_cons (c : Char) (rest : List Char) :
    unquote (c :: rest) =
      if c = '"' then some ([], rest)
      else if c = '\\' then
        match rest with
        | [] => none
        | e :: rest2 =>
          if e = 'u' then
            match rest2 with
            | a :: b :: c2 :: d :: rest3 =>
              (unquote rest3).map fun q =>
                (Char.ofNat (((hexValChar a * 16 + hexValChar b) * 16 + hexValChar c2) * 16
                  + hexValChar d) :: q.1, q.2)
            | _ => none
          else
            match escSimple e with
            | some ch => (unquote rest2).map fun q => (ch :: q.1, q.2)
            | none => none
      else (unquote rest).map fun q => (c :: q.1, q.2) := by
  rw [unquote.eq_def]

theorem unquote_quote_end (l : List Char) : unquote ('"' :: l) = some ([], l) := by
  rw [unquote_cons, if_pos rfl]

theorem unquote_other (c : Char) (l : List Char) (h1 : c ≠ '"') (h2 : c ≠ '\\') :
    unquote (c :: l) = (unquote l).map fun q => (c :: q.1, q.2) := by
  rw [unquote_cons, if_neg h1, if_neg h2]

theorem unquote_backslash (e ch : Char) (l : List Char) (h : escSimple e = some ch)
    (hu : e ≠ 'u') :
    unquote ('\\' :: e :: l) = (unquote l).map fun q => (ch :: q.1, q.2) := by
  rw [unquote_cons, if_neg (by decide : ¬('\\' = '"')), if_pos rfl]
  change (if e = 'u' then
      match l with
      | a :: b :: c2 :: d :: rest3 =>
        (unquote rest3).map fun q =>
          (Char.ofNat (((hexValChar a * 16 + hexValChar b) * 16 + hexValChar c2) * 16
            + hexValChar d) :: q.1, q.2)
      | _ => none
    else
      match escSimple e with
      | some ch => (unquote l).map fun q => (ch :: q.1, q.2)
      | none => none) = (unquote l).map fun q => (ch :: q.1, q.2)
  rw [if_neg hu, h]

theorem unquote_u (a b c2 d : Char) (l : List Char) :
    unquote ('\\' :: 'u' :: a :: b :: c2 :: d :: l) =
      (unquote l).map fun q =>
        (Char.ofNat (((hexValChar a * 16 + hexValChar b) * 16 + hexValChar c2) * 16
          + hexValChar d) :: q.1, q.2) := by
  rw [unquote_cons, if_neg (by decide : ¬('\\' = '"')), if_pos rfl]
  rfl

theorem unquote_escape (s rest : List Char) :
    unquote (s.flatMap escChar ++ '"' :: rest) = some (s, rest) := by
  induction s generalizing rest with
  | nil => simpa using unquote_quote_end rest
  | cons c cs ih =>
    rw [List.flatMap_cons, List.append_assoc]
    by_cases h1 : c = '"'
    · subst h1
      rw [show escChar '"' = ['\\', '"'] from rfl, List.cons_append, List.cons_append,
        List.nil_append, unquote_backslash '"' '"' _ (by decide) (by decide), ih]
      rfl
    · by_cases h2 : c = '\\'
      · subst h2
        rw [show escChar '\\' = ['\\', '\\'] from rfl, List.cons_append, List.cons_append,
          List.nil_append, unquote_backslash '\\' '\\' _ (by decide) (by decide), ih]
        rfl
      · by_cases h3 : c = '\x08'
        · subst h3
          rw [show escChar '\x08' = ['\\', 'b'] from rfl, List.cons_append, List.cons_append,
            List.nil_append, unquote_backslash 'b' '\x08' _ (by decide) (by decide), ih]
          rfl
        · by_cases h4 : c = '\x09'
          · subst h4
            rw [show escChar '\x09' = ['\\', 't'] from rfl, List.cons_append, List.cons_append,
              List.nil_append, unquote_backslash 't' '\x09' _ (by decide) (by decide), ih]
            rfl
          · by_cases h5 : c = '\x0a'
            · subst h5
              rw [show escChar '\x0a' = ['\\', 'n'] from rfl, List.cons_append, List.cons_append,
                List.nil_append, unquote_backslash 'n' '\x0a' _ (by decide) (by decide), ih]
              rfl
            · by_cases h6 : c = '\x0c'
              · subst h6
                rw [show escChar '\x0c' = ['\\', 'f'] from rfl, List.cons_append,
                  List.cons_append, List.nil_append,
                  unquote_backslash 'f' '\x0c' _ (by decide) (by decide), ih]
                rfl
              · by_cases h7 : c = '\x0d'
                · subst h7
                  rw [show escChar '\x0d' = ['\\', 'r'] from rfl, List.cons_append,
                    List.cons_append, List.nil_append,
                    unquote_backslash 'r' '\x0d' _ (by decide) (by decide), ih]
                  rfl
                · by_cases h8 : c.toNat < 32
                  · have he : escChar c =
                        ['\\', 'u', '0', '0', hexDigitChar (c.toNat / 16),
                          hexDigitChar (c.toNat % 16)] := by
                      simp [escChar, h1, h2, h3, h4, h5, h6, h7, h8]
                    rw [he, List.cons_append, List.cons_append, List.cons_append,
                      List.cons_append, List.cons_append, List.cons_append, List.nil_append,
                      unquote_u, ih]
                    have hv1 : hexValChar (hexDigitChar (c.toNat / 16)) = c.toNat / 16 :=
                      hexVal_hexDigit _ (by omega)
                    have hv2 : hexValChar (hexDigitChar (c.toNat % 16)) = c.toNat % 16 :=
                      hexVal_hexDigit _ (Nat.mod_lt _ (by omega))
                    have harg : ((hexValChar '0' * 16 + hexValChar '0') * 16
                        + hexValChar (hexDigitChar (c.toNat / 16))) * 16
                        + hexValChar (hexDigitChar (c.toNat % 16)) = c.toNat := by
                      rw [hv1, hv2, show hexValChar '0' = 0 from by decide]
                      omega
                    simp only [Option.map_some']
                    rw [harg, Char.ofNat_toNat]
                  · have he : escChar c = [c] := by
                      simp [escChar, h1, h2, h3, h4, h5, h6, h7, h8]
                    rw [he, List.cons_append, List.nil_append, unquote_other c _ h1 h2, ih]
                    rfl

theorem parseDigest_digest (n p l : List Char) :
    parseDigest (digestChars n p l) = some (n, p, l) := by
  have h : digestChars n p l =
      openLit ++ (n.flatMap escChar ++ '"' :: (pathLit ++ (p.flatMap escChar ++ '"' ::
        (lmLit ++ (l.flatMap escChar ++ '"' :: [rbrace]))))) := by
    simp [digestChars, openLit, pathLit, lmLit, jsonStrChars, List.append_assoc]
  rw [h]
  simp [parseDigest, dropLit_append, unquote_escape]

theorem digestOfFile_inj {n1 p1 l1 n2 p2 l2 : String}
    (h : digestOfFile n1 p1 l1 = digestOfFile n2 p2 l2) :
    n1 = n2 ∧ p1 = p2 ∧ l1 = l2 := by
  have hd : digestChars n1.data p1.data l1.data = digestChars n2.data p2.data l2.data :=
    congrArg String.data h
  have h1 := parseDigest_digest n1.data p1.data l1.data
  have h2 := parseDigest_digest n2.data p2.data l2.data
  rw [hd, h2] at h1
  injection h1 with h3
  injection h3 with hn h4
  injection h4 with hp hl
  exact ⟨(String.ext hn).symm, (String.ext hp).symm, (String.ext hl).symm⟩

/-! ## Helper lemmas about linking. -/

theorem strictEqNameUndef_true {name : Option String} {s : String}
    (h : strictEqNameUndef name s = true) : name = some s := by
  match name with
  | none => simp [strictEqNameUndef] at h
  | some n =>
    simp only [strictEqNameUndef, beq_iff_eq] at h
    rw [h]

theorem linkFolder_imageIds (fileNodes : List Record) (g : Record) :
    (linkFolder fileNodes g).dropboxImageIds =
      some ((((fileNodes.filter fun file =>
          strictEqNameUndef g.name (getParentFolderName file)).filter
        fun node => node.internal.type == TYPE_IMAGE).map Record.id)) := rfl

theorem linkFolder_markdownIds (fileNodes : List Record) (g : Record) :
    (linkFolder fileNodes g).dropboxMarkdownIds =
      some ((((fileNodes.filter fun file =>
          strictEqNameUndef g.name (getParentFolderName file)).filter
        fun node => node.internal.type == TYPE_MARKDOWN).map Record.id)) := rfl

theorem mem_linkFolder_image {fileNodes : List Record} {g : Record} {i : String} :
    i ∈ (linkFolder fileNodes g).dropboxImageIds.getD [] ↔
      ∃ f, f ∈ fileNodes ∧ f.internal.type = TYPE_IMAGE ∧
        strictEqNameUndef g.name (getParentFolderName f) = true ∧ f.id = i := by
  rw [linkFolder_imageIds]
  simp [List.mem_map, List.mem_filter, beq_iff_eq, and_assoc]

theorem mem_linkFolder_markdown {fileNodes : List Record} {g : Record} {i : String} :
    i ∈ (linkFolder fileNodes g).dropboxMarkdownIds.getD [] ↔
      ∃ f, f ∈ fileNodes ∧ f.internal.type = TYPE_MARKDOWN ∧
        strictEqNameUndef g.name (getParentFolderName f) = true ∧ f.id = i := by
  rw [linkFolder_markdownIds]
  simp [List.mem_map, List.mem_filter, beq_iff_eq, and_assoc]

/-! ## Generic list helpers. -/

theorem filter_map_comm {α β : Type} (f : α → β) (p : β → Bool) (l : List α) :
    (l.map f).filter p = (l.filter fun a => p (f a)).map f := by
  induction l with
  | nil => rfl
  | cons a t ih => by_cases h : p (f a) <;> simp [List.filter_cons, h, ih]

theorem length_le_one_of_nodup_of_all_eq {α : Type} {l : List α} (hn : l.Nodup)
    (a : α) (ha : ∀ x ∈ l, x = a) : l.length ≤ 1 := by
  match l with
  | [] => simp
  | [x] => simp
  | x :: y :: t =>
    exfalso
    have hx := ha x (by simp)
    have hy := ha y (by simp)
    rw [List.nodup_cons] at hn
    exact hn.1 (by rw [hx, ← hy]; simp)

/-! ## The parent-name computation keeps a slash for deeply nested
paths. -/

theorem lastIdxOf_eq_none {c : Char} {l : List Char} (h : lastIdxOf c l = none) : c ∉ l := by
  induction l with
  | nil => simp
  | cons d ds ih =>
    rw [lastIdxOf] at h
    cases hl : lastIdxOf c ds with
    | some i => rw [hl] at h; exact absurd h (by simp)
    | none =>
      rw [hl] at h
      by_cases hd : d = c
      · rw [if_pos hd] at h; exact absurd h (by simp)
      · intro hmem
        rcases List.mem_cons.mp hmem with he | he
        · exact hd he.symm
        · exact ih hl he

theorem lastIdxOf_some_mem {c : Char} {l : List Char} {i : Nat}
    (h : lastIdxOf c l = some i) : c ∈ l := by
  induction l generalizing i with
  | nil => simp [lastIdxOf] at h
  | cons d ds ih =>
    rw [lastIdxOf] at h
    cases hl : lastIdxOf c ds with
    | some j => exact List.mem_cons_of_mem _ (ih hl)
    | none =>
      rw [hl] at h
      by_cases hd : d = c
      · exact hd ▸ List.mem_cons_self _ _
      · rw [if_neg hd] at h
        exact absurd h (by simp)

theorem count_beforeLastSlash (l : List Char) (h : 1 ≤ l.count '/') :
    (beforeLastSlash l).count '/' = l.count '/' - 1 := by
  induction l with
  | nil => simp at h
  | cons d ds ih =>
    cases hl : lastIdxOf '/' ds with
    | some i =>
      have hcount : 1 ≤ ds.count '/' := List.count_pos_iff.mpr (lastIdxOf_some_mem hl)
      have ihs := ih hcount
      rw [beforeLastSlash, hl] at ihs
      have hbl : beforeLastSlash (d :: ds) = (d :: ds).take (i + 1) := by
        rw [beforeLastSlash, lastIdxOf, hl]
      rw [hbl, List.take_succ_cons, List.count_cons, List.count_cons, ihs]
      omega
    | none =>
      have hno : '/' ∉ ds := lastIdxOf_eq_none hl
      have hz : ds.count '/' = 0 := List.count_eq_zero.mpr hno
      have hd : d = '/' := by
        by_contra hdne
        rw [List.count_cons, hz] at h
        simp [hdne] at h
      have hbl : beforeLastSlash (d :: ds) = (d :: ds).take 0 := by
        rw [beforeLastSlash, lastIdxOf, hl, if_pos hd]
      rw [hbl, List.take_zero]
      simp [List.count_cons, hz, hd]

theorem count_removeFirstSlash_ge (l : List Char) :
    l.count '/' - 1 ≤ (removeFirstSlash l).count '/' := by
  induction l with
  | nil => simp [removeFirstSlash]
  | cons c cs ih =>
    by_cases h : c = '/'
    · subst h
      rw [removeFirstSlash, if_pos rfl, List.count_cons]
      simp
    · rw [removeFirstSlash, if_neg h, List.count_cons, List.count_cons]
      simp only [show (c == '/') = false from by simp [h]]
      omega

theorem parentFolderName_has_slash (path : String) (h : 3 ≤ path.data.count '/') :
    '/' ∈ (parentFolderName path).data := by
  have h1 : 1 ≤ path.data.count '/' := by omega
  have hb := count_beforeLastSlash path.data h1
  have hr := count_removeFirstSlash_ge (beforeLastSlash path.data)
  have hpos : 0 < (removeFirstSlash (beforeLastSlash path.data)).count '/' := by omega
  have hmem : '/' ∈ removeFirstSlash (beforeLastSlash path.data) :=
    List.count_pos_iff.mp hpos
  have hne : ¬(removeFirstSlash (beforeLastSlash path.data) = []) := by
    intro he
    rw [he] at hmem
    simp at hmem
  rw [parentFolderName, if_neg hne]
  exact hmem

/-! # Claim theorems -/

/-- Claim C1.  The spec says a listing failure is converted into an
empty result and no exception escapes `sourceNodes`.  On the code the
catch branch of `getData` returns the JS array `[]`, whose `.entries`
property is the array iterator method, so `extractFiles` throws
`TypeError: data.entries.filter is not a function` and the run rejects:
with a Dropbox client whose calls all fail, `getData` indeed takes the
catch branch, and `sourceNodes` throws instead of emitting zero
records. -/
theorem c1_listing_failure_throws (env : String → DownloadResult)
    (cache : String → Option String) (options : Options) :
    getData failDbx options = ListingData.emptyArray ∧
    sourceNodes failDbx env cache options = none := by
  have hg : getData failDbx options = ListingData.emptyArray := by
    rw [getData]
    by_cases hp : options.path == ""
    · simp [hp, failDbx, Bind.bind, Except.bind, pure, Except.pure]
    · simp [hp, failDbx, Bind.bind, Except.bind]
  exact ⟨hg, by simp [sourceNodes, hg, createNodeData, extractFiles]⟩

/-- Claim C2, counterexample.  `b.jpg` carries the configured image
extension `.jpg` and folder records are enabled, yet its record is
typed with the default type, not the image type: the switch label
`'.png' || '.jpg'` evaluates to `'.png'`, so `.jpg` never matches. -/
theorem c2_jpg_yields_default :
    defaultOptions.createFolderNodes = true ∧
    defaultOptions.extensions.contains (extname jpgEntry.name) = true ∧
    (buildFileNode defaultOptions jpgEntry).internal.type ≠ TYPE_IMAGE ∧
    (buildFileNode defaultOptions jpgEntry).internal.type = TYPE_DEFAULT := by
  refine ⟨rfl, by decide, by decide, by decide⟩

/-- Claim C2, amended.  With folder-record creation enabled, a file
record's type is markdown for extension `.md`, image for `.png` only,
and the default type for every other extension — including the allowed
image extension `.jpg`. -/
theorem c2_extension_type_mapping (options : Options) (file : RemoteEntry)
    (h : options.createFolderNodes = true) :
    (buildFileNode options file).internal.type =
      if extname file.path_display = ".md" then TYPE_MARKDOWN
      else if extname file.path_display = ".png" then TYPE_IMAGE
      else TYPE_DEFAULT := by
  simp [buildFileNode, getNodeType, h]

/-- Witness for `c2_extension_type_mapping` at a concrete `.md` entry. -/
theorem c2_extension_type_mapping_witness :
    defaultOptions.createFolderNodes = true ∧
    (buildFileNode defaultOptions mdEntryA).internal.type =
      (if extname mdEntryA.path_display = ".md" then TYPE_MARKDOWN
       else if extname mdEntryA.path_display = ".png" then TYPE_IMAGE
       else TYPE_DEFAULT) :=
  ⟨rfl, c2_extension_type_mapping defaultOptions mdEntryA rfl⟩

/-- Claim C3.  The spec says the folder named `root` — in particular the
synthetic root record when no real folder exists — receives every file
record whose path has no parent segment.  On the code the root-level
file `/a.md` is mapped to parent name `"root"`, but the synthetic root
record is pushed without a `name` field, so `getParentFolderName(file)
=== undefined` is false and both of its relation lists stay empty. -/
theorem c3_root_level_file_not_linked :
    getParentFolderName (buildFileNode defaultOptions mdEntryA) = "root" ∧
    (createNodeData (ListingData.ok [mdEntryA]) defaultOptions).map
        (List.map fun r => (r.id, r.dropboxImageIds, r.dropboxMarkdownIds)) =
      some [("dropboxRoot", some [], some []), ("id:a", none, none)] := by
  refine ⟨by decide, by decide⟩

/-- Claim C5.  Two built file records have equal `contentDigest` exactly
when their `name`, `path` and `lastModified` fields agree; in
particular the digest is independent of `id` and every other field. -/
theorem c5_digest_iff_semantic_fields (options : Options) (e1 e2 : RemoteEntry) :
    (buildFileNode options e1).internal.contentDigest =
        (buildFileNode options e2).internal.contentDigest ↔
      ((buildFileNode options e1).name = (buildFileNode options e2).name ∧
       (buildFileNode options e1).path = (buildFileNode options e2).path ∧
       (buildFileNode options e1).lastModified = (buildFileNode options e2).lastModified) := by
  constructor
  · intro h
    obtain ⟨hn, hp, hl⟩ := digestOfFile_inj h
    exact ⟨by simp [buildFileNode, hn], by simp [buildFileNode, hp],
      by simp [buildFileNode, hl]⟩
  · rintro ⟨hn, hp, hl⟩
    simp only [buildFileNode, Option.some.injEq] at hn hp hl
    simp [buildFileNode, digestOfFile, hn, hp, hl]

/-- Claim C8.  Every id in a linked folder's image relation list is the
id of a file record of image type, every id in its markdown relation
list is the id of a file record of markdown type, and (given that file
ids identify records uniquely) no default- or folder-typed record's id
appears in either relation list. -/
theorem c8_relation_lists_only_typed_ids (fileNodes : List Record) (g : Record) :
    (∀ i ∈ (linkFolder fileNodes g).dropboxImageIds.getD [],
        ∃ f, f ∈ fileNodes ∧ f.id = i ∧ f.internal.type = TYPE_IMAGE) ∧
    (∀ i ∈ (linkFolder fileNodes g).dropboxMarkdownIds.getD [],
        ∃ f, f ∈ fileNodes ∧ f.id = i ∧ f.internal.type = TYPE_MARKDOWN) ∧
    (∀ r : Record,
        r.internal.type = TYPE_DEFAULT ∨ r.internal.type = TYPE_FOLDER →
        (∀ f ∈ fileNodes, f.id = r.id → f = r) →
        r.id ∉ (linkFolder fileNodes g).dropboxImageIds.getD [] ∧
        r.id ∉ (linkFolder fileNodes g).dropboxMarkdownIds.getD []) := by
  refine ⟨?_, ?_, ?_⟩
  · intro i hi
    obtain ⟨f, hf, ht, _, hid⟩ := mem_linkFolder_image.mp hi
    exact ⟨f, hf, hid, ht⟩
  · intro i hi
    obtain ⟨f, hf, ht, _, hid⟩ := mem_linkFolder_markdown.mp hi
    exact ⟨f, hf, hid, ht⟩
  · intro r hr huniq
    constructor
    · intro hi
      obtain ⟨f, hf, ht, _, hid⟩ := mem_linkFolder_image.mp hi
      rw [huniq f hf hid] at ht
      rcases hr with h | h <;> exact absurd (h.symm.trans ht) (by decide)
    · intro hi
      obtain ⟨f, hf, ht, _, hid⟩ := mem_linkFolder_markdown.mp hi
      rw [huniq f hf hid] at ht
      rcases hr with h | h <;> exact absurd (h.symm.trans ht) (by decide)

/-- Witness for `c8_relation_lists_only_typed_ids`: the image list of
the linked folder `b` contains `"id:p"`, and the theorem produces the
image-typed file record carrying that id. -/
theorem c8_relation_lists_only_typed_ids_witness :
    ∃ f, f ∈ [buildFileNode defaultOptions pngInBEntry] ∧ f.id = "id:p" ∧
      f.internal.type = TYPE_IMAGE :=
  (c8_relation_lists_only_typed_ids [buildFileNode defaultOptions pngInBEntry]
    (buildFolderNode bFolderEntry)).1 "id:p" (by decide)

/-- Claim C10.  A file whose `path` has at least two parent directory
levels (at least three slashes) gets a parent name that still contains
a slash — `substring`+single `replace` removes only the first slash —
so it can match no folder whose bare name is slash-free, and its id
appears in no folder's relation lists (file ids being unique). -/
theorem c10_deep_file_never_linked (folderNodes fileNodes : List Record) (f : Record)
    (hf : f ∈ fileNodes)
    (hids : (fileNodes.map Record.id).Nodup)
    (hdeep : 3 ≤ (f.path.getD "").data.count '/')
    (hbare : ∀ g ∈ folderNodes, ∀ n, g.name = some n → '/' ∉ n.data) :
    ∀ g ∈ folderNodes,
      f.id ∉ (linkFolder fileNodes g).dropboxImageIds.getD [] ∧
      f.id ∉ (linkFolder fileNodes g).dropboxMarkdownIds.getD [] := by
  intro g hg
  have key : ∀ f', f' ∈ fileNodes → f'.id = f.id →
      strictEqNameUndef g.name (getParentFolderName f') = true → False := by
    intro f' hf' hid heq
    rw [List.inj_on_of_nodup_map hids hf' hf hid] at heq
    have hname : g.name = some (getParentFolderName f) := strictEqNameUndef_true heq
    have hslash : '/' ∈ (getParentFolderName f).data :=
      parentFolderName_has_slash (f.path.getD "") hdeep
    exact hbare g hg _ hname hslash
  constructor
  · intro hmem
    obtain ⟨f', hf', _, heq, hid⟩ := mem_linkFolder_image.mp hmem
    exact key f' hf' hid heq
  · intro hmem
    obtain ⟨f', hf', _, heq, hid⟩ := mem_linkFolder_markdown.mp hmem
    exact key f' hf' hid heq

/-- Witness for `c10_deep_file_never_linked`: the file `/a/b/c.png` is
not in either relation list of the folder record named `b`. -/
theorem c10_deep_file_never_linked_witness :
    (buildFileNode defaultOptions deepPngEntry).id ∉
        (linkFolder [buildFileNode defaultOptions deepPngEntry]
          (buildFolderNode bFolderEntry)).dropboxImageIds.getD [] ∧
    (buildFileNode defaultOptions deepPngEntry).id ∉
        (linkFolder [buildFileNode defaultOptions deepPngEntry]
          (buildFolderNode bFolderEntry)).dropboxMarkdownIds.getD [] :=
  c10_deep_file_never_linked [buildFolderNode bFolderEntry]
    [buildFileNode defaultOptions deepPngEntry] (buildFileNode defaultOptions deepPngEntry)
    (by decide) (by decide) (by decide)
    (by
      intro g hg n hn
      rw [List.mem_singleton] at hg
      subst hg
      have h2 : some "b" = some n := hn
      injection h2 with h2
      rw [← h2]
      decide)
    (buildFolderNode bFolderEntry) (by decide)

/-- Claim C4, counterexample.  Folder matching is by bare `name`: with
two folders both named `docs` (paths `/docs` and `/x/docs`) and the
file `/docs/a.md`, the file's id `id:m` appears in the markdown
relation lists of BOTH folder records, refuting "at most one folder". -/
theorem c4_duplicate_folder_names_share_file :
    (createNodeData (ListingData.ok [docsMdEntry, docsFolderEntry, docsFolderEntry2])
        defaultOptions).map (List.map fun r => (r.id, r.dropboxMarkdownIds)) =
      some [("id:f1", some ["id:m"]), ("id:f2", some ["id:m"]),
        ("dropboxRoot", some []), ("id:m", none)] := by decide

/-- Claim C4, amended.  Provided the folder records' `name` fields are
pairwise distinct and file ids are pairwise distinct, a file record's
id appears in the relation lists of at most one linked folder record;
membership is decided solely by comparing the folder `name` with the
parent segment of the file's `path`. -/
theorem c4_membership_at_most_one_folder (folderNodes fileNodes : List Record) (f : Record)
    (hf : f ∈ fileNodes)
    (hids : (fileNodes.map Record.id).Nodup)
    (hnames : (folderNodes.map Record.name).Nodup) :
    ((folderNodes.map (linkFolder fileNodes)).filter fun r =>
        (r.dropboxImageIds.getD []).contains f.id
          || (r.dropboxMarkdownIds.getD []).contains f.id).length ≤ 1 := by
  rw [filter_map_comm, List.length_map]
  have hall : ∀ g ∈ folderNodes.filter (fun a =>
      ((linkFolder fileNodes a).dropboxImageIds.getD []).contains f.id
        || ((linkFolder fileNodes a).dropboxMarkdownIds.getD []).contains f.id),
      g.name = some (getParentFolderName f) := by
    intro g hg
    rw [List.mem_filter] at hg
    have hkey : ∀ f', f' ∈ fileNodes → f'.id = f.id →
        strictEqNameUndef g.name (getParentFolderName f') = true →
        g.name = some (getParentFolderName f) := by
      intro f' hf' hid heq
      rw [List.inj_on_of_nodup_map hids hf' hf hid] at heq
      exact strictEqNameUndef_true heq
    rcases (Bool.or_eq_true _ _) ▸ hg.2 with hc | hc
    · obtain ⟨f', hf', _, heq, hid⟩ := mem_linkFolder_image.mp (List.elem_iff.mp hc)
      exact hkey f' hf' hid heq
    · obtain ⟨f', hf', _, heq, hid⟩ := mem_linkFolder_markdown.mp (List.elem_iff.mp hc)
      exact hkey f' hf' hid heq
  have hsub := List.Sublist.map Record.name
    (@List.filter_sublist _ (fun a =>
      ((linkFolder fileNodes a).dropboxImageIds.getD []).contains f.id
        || ((linkFolder fileNodes a).dropboxMarkdownIds.getD []).contains f.id) folderNodes)
  have hnod := List.Nodup.sublist hsub hnames
  have hlen := length_le_one_of_nodup_of_all_eq hnod (some (getParentFolderName f)) (by
    intro x hx
    rw [List.mem_map] at hx
    obtain ⟨g, hg, hgx⟩ := hx
    rw [← hgx]
    exact hall g hg)
  rw [List.length_map] at hlen
  exact hlen

/-- Witness for `c4_membership_at_most_one_folder` with one folder
`docs` and the single file `/docs/a.md`. -/
theorem c4_membership_at_most_one_folder_witness :
    (([buildFolderNode docsFolderEntry].map
        (linkFolder [buildFileNode defaultOptions docsMdEntry])).filter fun r =>
        (r.dropboxImageIds.getD []).contains (buildFileNode defaultOptions docsMdEntry).id
          || (r.dropboxMarkdownIds.getD []).contains
            (buildFileNode defaultOptions docsMdEntry).id).length ≤ 1 :=
  c4_membership_at_most_one_folder [buildFolderNode docsFolderEntry]
    [buildFileNode defaultOptions docsMdEntry] (buildFileNode defaultOptions docsMdEntry)
    (by decide) (by decide) (by decide)

/-- Claim C6.  When the record has a classified file type, no usable
cached payload exists and the download fails (url request or
`createRemoteFileNode` throws), the failure is caught: the record is
returned unchanged, without a payload reference.  In the three-record
scenario where the materializer fails only for `/b.md`, all three
records are emitted and exactly the other two carry a payload
reference. -/
theorem c6_materialization_failure_is_soft (env : String → DownloadResult)
    (cache : String → Option String) (datum : Record)
    (happ : datum.internal.type = TYPE_MARKDOWN ∨ datum.internal.type = TYPE_IMAGE ∨
      datum.internal.type = TYPE_DEFAULT)
    (hcold : jsTruthy (cache (remoteDataCacheKey datum)) = false)
    (hfail : env (datum.path.getD "") = DownloadResult.urlError ∨
      env (datum.path.getD "") = DownloadResult.createError) :
    (processRemoteFile env cache datum).datum = datum ∧
    ((processAllRecords envFailB emptyCache
        [buildFileNode defaultOptions mdEntryA, buildFileNode defaultOptions mdEntryB,
          buildFileNode defaultOptions mdEntryC]).1.map fun r => (r.id, r.localFile)) =
      [("id:a", some "fn/a.md"), ("id:b", none), ("id:c", some "fn/c.md")] := by
  have hcond : (datum.internal.type == TYPE_IMAGE || datum.internal.type == TYPE_MARKDOWN
      || datum.internal.type == TYPE_DEFAULT) = true := by
    rcases happ with h | h | h <;> rw [h] <;> decide
  constructor
  · rcases hfail with hfail | hfail <;> simp [processRemoteFile, hcond, hcold, hfail]
  · decide

/-- Witness for `c6_materialization_failure_is_soft`: the record for
`/b.md` is returned unchanged when its download url request throws. -/
theorem c6_materialization_failure_is_soft_witness :
    (processRemoteFile envFailB emptyCache (buildFileNode defaultOptions mdEntryB)).datum =
      buildFileNode defaultOptions mdEntryB :=
  (c6_materialization_failure_is_soft envFailB emptyCache
    (buildFileNode defaultOptions mdEntryB) (by decide) (by decide) (by decide)).1

/-- Claim C7.  After a first successful materialization (cold cache,
download yields node id `nid`), the cache holds `nid` under
`dropbox-file-` + id; a second run on the warm cache performs exactly a
cache lookup and a touch — no temporary-url request — and attaches the
same payload reference `nid` as the first run. -/
theorem c7_warm_cache_reuses_payload (env : String → DownloadResult)
    (cache : String → Option String) (datum : Record) (nid : String)
    (happ : datum.internal.type = TYPE_MARKDOWN ∨ datum.internal.type = TYPE_IMAGE ∨
      datum.internal.type = TYPE_DEFAULT)
    (hcold : cache (remoteDataCacheKey datum) = none)
    (henv : env (datum.path.getD "") = DownloadResult.node nid)
    (hnid : nid ≠ "") :
    (processRemoteFile env cache datum).datum.localFile = some nid ∧
    (processRemoteFile env cache datum).cache (remoteDataCacheKey datum) = some nid ∧
    (processRemoteFile env (processRemoteFile env cache datum).cache datum).trace =
      [Act.cacheGet (remoteDataCacheKey datum), Act.touchNode nid] ∧
    Act.getTemporaryUrl (datum.path.getD "") ∉
      (processRemoteFile env (processRemoteFile env cache datum).cache datum).trace ∧
    (processRemoteFile env (processRemoteFile env cache datum).cache datum).datum.localFile =
      some nid := by
  have hcond : (datum.internal.type == TYPE_IMAGE || datum.internal.type == TYPE_MARKDOWN
      || datum.internal.type == TYPE_DEFAULT) = true := by
    rcases happ with h | h | h <;> rw [h] <;> decide
  refine ⟨?_, ?_, ?_, ?_, ?_⟩ <;>
    simp [processRemoteFile, hcond, hcold, henv, jsTruthy, hnid]

/-- Witness for `c7_warm_cache_reuses_payload` at the record for
`/a.md` under the always-successful materializer. -/
theorem c7_warm_cache_reuses_payload_witness :
    (processRemoteFile envOk emptyCache (buildFileNode defaultOptions mdEntryA)).datum.localFile =
      some "fn/a.md" ∧
    (processRemoteFile envOk emptyCache (buildFileNode defaultOptions mdEntryA)).cache
      (remoteDataCacheKey (buildFileNode defaultOptions mdEntryA)) = some "fn/a.md" ∧
    (processRemoteFile envOk
        (processRemoteFile envOk emptyCache (buildFileNode defaultOptions mdEntryA)).cache
        (buildFileNode defaultOptions mdEntryA)).trace =
      [Act.cacheGet (remoteDataCacheKey (buildFileNode defaultOptions mdEntryA)),
        Act.touchNode "fn/a.md"] ∧
    Act.getTemporaryUrl ((buildFileNode defaultOptions mdEntryA).path.getD "") ∉
      (processRemoteFile envOk
        (processRemoteFile envOk emptyCache (buildFileNode defaultOptions mdEntryA)).cache
        (buildFileNode defaultOptions mdEntryA)).trace ∧
    (processRemoteFile envOk
        (processRemoteFile envOk emptyCache (buildFileNode defaultOptions mdEntryA)).cache
        (buildFileNode defaultOptions mdEntryA)).datum.localFile = some "fn/a.md" :=
  c7_warm_cache_reuses_payload envOk emptyCache (buildFileNode defaultOptions mdEntryA)
    "fn/a.md" (by decide) (by decide) (by decide) (by decide)

/-- Claim C9.  `processRemoteFile` returns the record with every field
unchanged except possibly `localFile___NODE`; for a record whose type
is not markdown, image or default — in particular a folder record — it
performs no collaborator call, leaves the cache untouched and returns
the record identically. -/
theorem c9_frame_only_localFile (env : String → DownloadResult)
    (cache : String → Option String) (datum : Record) :
    (∃ o : Option String,
        (processRemoteFile env cache datum).datum = { datum with localFile := o }) ∧
    (datum.internal.type ≠ TYPE_MARKDOWN → datum.internal.type ≠ TYPE_IMAGE →
      datum.internal.type ≠ TYPE_DEFAULT →
      (processRemoteFile env cache datum).datum = datum ∧
      (processRemoteFile env cache datum).trace = [] ∧
      (processRemoteFile env cache datum).cache = cache) := by
  constructor
  · simp only [processRemoteFile]
    split
    · split
      · exact ⟨cache (remoteDataCacheKey datum), rfl⟩
      · split
        · exact ⟨datum.localFile, rfl⟩
        · exact ⟨datum.localFile, rfl⟩
        · exact ⟨datum.localFile, rfl⟩
        · split
          · exact ⟨some _, rfl⟩
          · exact ⟨datum.localFile, rfl⟩
    · exact ⟨datum.localFile, rfl⟩
  · intro h1 h2 h3
    have hcond : (datum.internal.type == TYPE_IMAGE || datum.internal.type == TYPE_MARKDOWN
        || datum.internal.type == TYPE_DEFAULT) = false := by
      simp [h1, h2, h3]
    simp [processRemoteFile, hcond]

/-- Witness for `c9_frame_only_localFile` at the folder record built
for `/docs`. -/
theorem c9_frame_only_localFile_witness :
    (processRemoteFile envOk emptyCache (buildFolderNode docsFolderEntry)).datum =
        buildFolderNode docsFolderEntry ∧
    (processRemoteFile envOk emptyCache (buildFolderNode docsFolderEntry)).trace = [] ∧
    (processRemoteFile envOk emptyCache (buildFolderNode docsFolderEntry)).cache = emptyCache :=
  (c9_frame_only_localFile envOk emptyCache (buildFolderNode docsFolderEntry)).2
    (by decide) (by decide) (by decide)
